import Mathlib

/-!
Verification of the observatory backend: a shallow embedding in Lean 4 of
the dome simulator state machine (`app/api/dome_fake.py`), the dome sync
loop and its wiring (`app/api/dome.py`, `app/api/telescope.py`), the
angle codec and command channel of the 10Micron mount driver
(`app/api/tenmicron/tenmicron.py`), and the dome-azimuth geometry model
(`app/api/dome_geometry.py`).

Python floats are modelled as exact rationals (`ℚ`) where the relevant
computations are exact on the inputs in question, and as reals (`ℝ`) for
the trigonometric geometry model.  Fallible operations return
`Option`/`Except`-style results; object mutation is modelled by explicit
state passing.
-/

namespace Observatory

/-! ## Dome simulator (`app/api/dome_fake.py`, class `DomeFake`)

Mutable attributes of `DomeFake` become fields of `DomeState`; wall-clock
time (`time.time()`) is passed explicitly as a rational timestamp. -/

/-- Errors raised by `DomeFake` (`DomeError(...)` in the source):
`notConnected` is `DomeError("Dome not connected")`, `alreadyMoving` is
`DomeError("Dome is already moving")`. -/
inductive DomeErr
  | notConnected
  | alreadyMoving
deriving DecidableEq, Repr

/-- State of the fake dome: `_is_connected`, `_azimuth`, `_is_moving`,
`_target_azimuth`, `_start_azimuth`, `_move_start_time`, `_move_duration`
from `DomeFake.__init__`.  (`_is_syncing` and the task handle only gate
whether the sync loop runs and are not needed by any per-cycle claim.) -/
structure DomeState where
  connected : Bool
  az : ℚ
  moving : Bool
  target : ℚ
  startAz : ℚ
  moveStart : ℚ
  duration : ℚ
deriving DecidableEq, Repr

/-- The dome state right after `connect()`: all numeric fields as set in
`DomeFake.__init__` (azimuth 180, target 180, start 180, not moving) with
`_is_connected = True`. -/
def domeInit : DomeState :=
  { connected := true, az := 180, moving := false, target := 180,
    startAz := 180, moveStart := 0, duration := 0 }

/-- Python float modulus `x % m` for `m > 0` (used as `% 360` in
`_update_position`): result in `[0, m)`, sign follows the divisor. -/
def pymod (x m : ℚ) : ℚ :=
  x - m * ⌊x / m⌋

/-- The shortest-path delta mapping of `_update_position` (lines 83-87):
`delta > 180` subtracts 360, `delta < -180` adds 360. -/
def wrapDelta (d : ℚ) : ℚ :=
  if d > 180 then d - 360 else if d < -180 then d + 360 else d

/-- `DomeFake._update_position` at wall-clock time `now`: no-op unless
moving; snaps to the target and clears `moving` once
`elapsed >= duration`; otherwise linearly interpolates from the start
azimuth along the wrapped (shortest-path) delta and wraps into `[0,360)`
with `% 360`. -/
def updatePosition (now : ℚ) (s : DomeState) : DomeState :=
  if s.moving = false then s
  else if now - s.moveStart ≥ s.duration then
    { s with az := s.target, moving := false }
  else
    { s with az := pymod (s.startAz + wrapDelta (s.target - s.startAz) * ((now - s.moveStart) / s.duration)) 360 }

/-- `DomeFake.get_status`: raises if not connected, else updates the
position and returns `(azimuth, moving)` together with the mutated
state. -/
def getStatus (now : ℚ) (s : DomeState) : Except DomeErr ((ℚ × Bool) × DomeState) :=
  if s.connected = false then .error .notConnected
  else
    .ok (((updatePosition now s).az, (updatePosition now s).moving), updatePosition now s)

/-- `DomeFake.move_to_azimuth(target_az)` at wall-clock time `now`.
Checks `connected`, then the `moving` flag (raising
`DomeError("Dome is already moving")` before any mutation), then updates
the position, records target/origin/start time, sets `moving`, and
records `duration = abs(target - start) / 5.0`.  Returns the raised
error (if any) paired with the state after the call. -/
def moveToAzimuth (now targetAz : ℚ) (s : DomeState) : Option DomeErr × DomeState :=
  if s.connected = false then (some .notConnected, s)
  else if s.moving = true then (some .alreadyMoving, s)
  else
    (none,
      { updatePosition now s with
          target := targetAz,
          startAz := (updatePosition now s).az,
          moving := true,
          moveStart := now,
          duration := |targetAz - (updatePosition now s).az| / 5 })

/-- `DomeFake.stop_movement`: raises if not connected, else updates the
position and clears the `moving` flag if set. -/
def stopMovement (now : ℚ) (s : DomeState) : Option DomeErr × DomeState :=
  if s.connected = false then (some .notConnected, s)
  else if (updatePosition now s).moving = true then
    (none, { updatePosition now s with moving := false })
  else (none, updatePosition now s)

/-- Outcome of the mount reads plus geometry evaluation at the top of one
`_sync_loop` cycle: either a computed required azimuth, or any exception
(which the `except Exception` of the cycle swallows). -/
inductive ReadOutcome
  | ok (targetAz : ℚ)
  | failure
deriving DecidableEq, Repr

/-- One `_sync_loop` cycle body (lines 125-150 of `dome_fake.py`) given
the outcome of the mount reads: when they succeed with computed azimuth
`target_az`, the cycle calls `move_to_azimuth(target_az)` exactly when
`not self._is_moving and abs(target_az - self._target_azimuth) > 1.0`.
Returns the new state and the number of `move_to_azimuth` calls issued. -/
def syncCycle (now : ℚ) (outcome : ReadOutcome) (s : DomeState) : DomeState × ℕ :=
  match outcome with
  | .failure => (s, 0)
  | .ok targetAz =>
    if s.moving = false ∧ |targetAz - s.target| > 1 then
      ((moveToAzimuth now targetAz s).2, 1)
    else (s, 0)

/-- An externally observable dome operation, each carrying the wall-clock
time at which it runs. -/
inductive DomeOp
  | move (t targetAz : ℚ)
  | stop (t : ℚ)
  | status (t : ℚ)
  | sync (t : ℚ) (outcome : ReadOutcome)
deriving DecidableEq, Repr

/-- The timestamp carried by an operation. -/
def DomeOp.time : DomeOp → ℚ
  | .move t _ => t
  | .stop t => t
  | .status t => t
  | .sync t _ => t

/-- State transition of one dome operation (discarding return values). -/
def domeStep (s : DomeState) : DomeOp → DomeState
  | .move t targetAz => (moveToAzimuth t targetAz s).2
  | .stop t => (stopMovement t s).2
  | .status t =>
    match getStatus t s with
    | .ok (_, s₁) => s₁
    | .error _ => s
  | .sync t outcome => (syncCycle t outcome s).1

/-- Run a sequence of dome operations. -/
def domeRun (s : DomeState) : List DomeOp → DomeState
  | [] => s
  | op :: rest => domeRun (domeStep s op) rest

/-- A commanded azimuth is in range when it lies in `[0, 360)`; only move
commands and successful sync cycles command azimuths. -/
def opOk : DomeOp → Prop
  | .move _ a => 0 ≤ a ∧ a < 360
  | .sync _ (.ok a) => 0 ≤ a ∧ a < 360
  | _ => True

/-- Timestamps are nondecreasing starting from `tmin` and every commanded
azimuth is in `[0, 360)`. -/
def OpsOk : ℚ → List DomeOp → Prop
  | _, [] => True
  | tmin, op :: rest => tmin ≤ op.time ∧ opOk op ∧ OpsOk op.time rest

/-- The time of the last operation (or `tmin` if there is none). -/
def opsEnd : ℚ → List DomeOp → ℚ
  | tmin, [] => tmin
  | _, op :: rest => opsEnd op.time rest

/-- Reachability invariant of the dome state under in-range commands:
connected, all stored azimuths in `[0, 360)`, the recorded move start not
in the future (`tmin` bounds all later wall-clock reads), nonnegative
duration. -/
structure DomeInv (tmin : ℚ) (s : DomeState) : Prop where
  connected : s.connected = true
  az0 : 0 ≤ s.az
  az1 : s.az < 360
  st0 : 0 ≤ s.startAz
  st1 : s.startAz < 360
  tg0 : 0 ≤ s.target
  tg1 : s.target < 360
  ms : s.moveStart ≤ tmin
  dur : 0 ≤ s.duration

theorem pymod_nonneg (x : ℚ) {m : ℚ} (hm : 0 < m) : 0 ≤ pymod x m := by
  have h := Int.floor_le (x / m)
  have : m * ⌊x / m⌋ ≤ m * (x / m) := by
    exact mul_le_mul_of_nonneg_left h (le_of_lt hm)
  rw [mul_div_cancel₀ x (ne_of_gt hm)] at this
  simpa [pymod] using this

theorem pymod_lt (x : ℚ) {m : ℚ} (hm : 0 < m) : pymod x m < m := by
  have h := Int.lt_floor_add_one (x / m)
  have h2 : m * (x / m) < m * (⌊x / m⌋ + 1) := mul_lt_mul_of_pos_left h hm
  rw [mul_div_cancel₀ x (ne_of_gt hm)] at h2
  have h3 : m * ((⌊x / m⌋ : ℚ) + 1) = m * ⌊x / m⌋ + m := by ring
  rw [h3] at h2
  unfold pymod
  linarith

theorem wrapDelta_abs_le {d : ℚ} (h₀ : -360 < d) (h₁ : d < 360) :
    |wrapDelta d| ≤ 180 := by
  unfold wrapDelta
  split_ifs with h2 h3
  · rw [abs_le]; constructor <;> linarith
  · rw [abs_le]; constructor <;> linarith
  · rw [abs_le]; constructor <;> linarith

theorem wrapDelta_congruent (d : ℚ) : ∃ k : ℤ, d = wrapDelta d + 360 * k := by
  unfold wrapDelta
  split_ifs
  · exact ⟨1, by push_cast; ring⟩
  · exact ⟨-1, by push_cast; ring⟩
  · exact ⟨0, by push_cast; ring⟩

theorem DomeInv.mono {t₀ t : ℚ} {s : DomeState} (h : DomeInv t₀ s) (ht : t₀ ≤ t) :
    DomeInv t s :=
  { h with ms := le_trans h.ms ht }

theorem updatePosition_inv {tmin : ℚ} {s : DomeState} (h : DomeInv tmin s) (now : ℚ) :
    DomeInv tmin (updatePosition now s) := by
  unfold updatePosition
  split_ifs with h1 h2
  · exact h
  · exact { h with az0 := h.tg0, az1 := h.tg1 }
  · exact { h with az0 := pymod_nonneg _ (by norm_num),
                   az1 := pymod_lt _ (by norm_num) }

theorem moveToAzimuth_inv {t₀ : ℚ} {s : DomeState} (h : DomeInv t₀ s)
    {t a : ℚ} (ht : t₀ ≤ t) (ha0 : 0 ≤ a) (ha1 : a < 360) :
    DomeInv t ((moveToAzimuth t a s).2) := by
  unfold moveToAzimuth
  split_ifs with h1 h2
  · exact absurd h.connected (by simp [h1])
  · exact h.mono ht
  · have hup := updatePosition_inv h t
    exact { connected := hup.connected, az0 := hup.az0, az1 := hup.az1,
            st0 := hup.az0, st1 := hup.az1, tg0 := ha0, tg1 := ha1,
            ms := le_refl t,
            dur := by positivity }

theorem stopMovement_inv {t₀ : ℚ} {s : DomeState} (h : DomeInv t₀ s)
    {t : ℚ} (ht : t₀ ≤ t) : DomeInv t ((stopMovement t s).2) := by
  unfold stopMovement
  have hup := (updatePosition_inv h t).mono ht
  split_ifs with h1 h2
  · exact absurd h.connected (by simp [h1])
  · exact { connected := hup.connected, az0 := hup.az0, az1 := hup.az1,
            st0 := hup.st0, st1 := hup.st1, tg0 := hup.tg0, tg1 := hup.tg1,
            ms := hup.ms, dur := hup.dur }
  · exact hup

theorem domeStep_inv {t₀ : ℚ} {s : DomeState} (h : DomeInv t₀ s)
    {op : DomeOp} (ht : t₀ ≤ op.time) (hop : opOk op) :
    DomeInv op.time (domeStep s op) := by
  match op with
  | .move t a => exact moveToAzimuth_inv h ht hop.1 hop.2
  | .stop t => exact stopMovement_inv h ht
  | .status t =>
    have hup := (updatePosition_inv h t).mono ht
    simp only [domeStep, getStatus, h.connected]
    simpa using hup
  | .sync t outcome =>
    match outcome with
    | .failure => exact h.mono ht
    | .ok a =>
      simp only [domeStep, syncCycle]
      split_ifs with h1
      · exact moveToAzimuth_inv h ht hop.1 hop.2
      · exact h.mono ht

theorem domeRun_inv {tmin : ℚ} {s : DomeState} (h : DomeInv tmin s)
    {ops : List DomeOp} (hops : OpsOk tmin ops) :
    DomeInv (opsEnd tmin ops) (domeRun s ops) := by
  induction ops generalizing tmin s with
  | nil => exact h
  | cons op rest ih =>
    exact ih (domeStep_inv h hops.1 hops.2.1) hops.2.2

theorem domeInit_inv : DomeInv 0 domeInit := by
  constructor <;> norm_num [domeInit]

theorem updatePosition_of_not_moving {s : DomeState} (hm : s.moving = false) (now : ℚ) :
    updatePosition now s = s := by
  simp [updatePosition, hm]

/-- C1: in a sync-loop cycle whose mount reads succeed with computed
azimuth `caz`, while the dome is idle (`moving` false): if the absolute
delta between `caz` and the last-commanded target azimuth is at most 1
degree the cycle issues no `move_to_azimuth` call, and if it exceeds 1
degree the cycle issues exactly one. -/
theorem syncCycle_hysteresis (now caz : ℚ) (s : DomeState) (hidle : s.moving = false) :
    (|caz - s.target| ≤ 1 → (syncCycle now (.ok caz) s).2 = 0)
    ∧ (|caz - s.target| > 1 → (syncCycle now (.ok caz) s).2 = 1) := by
  constructor
  · intro h
    have h2 : ¬(|caz - s.target| > 1) := not_lt.mpr h
    simp [syncCycle, hidle, h2]
  · intro h
    simp [syncCycle, hidle, h]

/-- Witness for C1 at concrete inputs: from the initial state (last target
180), a computed azimuth of 181 (delta exactly 1) issues no move and a
computed azimuth of 182 (delta 2) issues exactly one. -/
theorem syncCycle_hysteresis_w :
    (syncCycle 0 (.ok 181) domeInit).2 = 0 ∧ (syncCycle 0 (.ok 182) domeInit).2 = 1 := by
  constructor
  · exact (syncCycle_hysteresis 0 181 domeInit rfl).1 (by norm_num [domeInit])
  · exact (syncCycle_hysteresis 0 182 domeInit rfl).2 (by norm_num [domeInit])

/-- C3: with the dome connected, `move_to_azimuth` raises the
already-moving error exactly when the `moving` flag is true at call time;
a failed call leaves the state unchanged; and after an accepted call a
second `move_to_azimuth` (at any time, any target — in particular before
the duration of the first move has elapsed) raises and leaves the state
unchanged. -/
theorem moveToAzimuth_raises_of_moving {s : DomeState} (hc : s.connected = true)
    (hm : s.moving = true) (t tgt : ℚ) :
    moveToAzimuth t tgt s = (some DomeErr.alreadyMoving, s) := by
  simp [moveToAzimuth, hc, hm]

theorem moveToAzimuth_already_moving (now tgt : ℚ) (s : DomeState) (hc : s.connected = true) :
    ((moveToAzimuth now tgt s).1 = some DomeErr.alreadyMoving ↔ s.moving = true)
    ∧ (s.moving = true → (moveToAzimuth now tgt s).2 = s)
    ∧ (s.moving = false → ∀ t₂ tgt₂,
        (moveToAzimuth t₂ tgt₂ ((moveToAzimuth now tgt s).2)).1 = some DomeErr.alreadyMoving
        ∧ (moveToAzimuth t₂ tgt₂ ((moveToAzimuth now tgt s).2)).2 = (moveToAzimuth now tgt s).2) := by
  by_cases hm : s.moving = true
  · refine ⟨by simp [moveToAzimuth, hc, hm], fun _ => by simp [moveToAzimuth, hc, hm], ?_⟩
    intro h
    rw [hm] at h
    exact absurd h (by simp)
  · have hm' : s.moving = false := by simpa using hm
    refine ⟨by simp [moveToAzimuth, hc, hm'], fun h => absurd h (by simp [hm']), ?_⟩
    intro _ t₂ tgt₂
    have hcon : ((moveToAzimuth now tgt s).2).connected = true := by
      simp [moveToAzimuth, hc, hm', updatePosition_of_not_moving hm']
    have hmov : ((moveToAzimuth now tgt s).2).moving = true := by
      simp [moveToAzimuth, hc, hm']
    rw [moveToAzimuth_raises_of_moving hcon hmov t₂ tgt₂]
    exact ⟨rfl, rfl⟩

/-- Witness for C3 at concrete inputs: from the connected initial state,
a first move to azimuth 90 is accepted, and a second call (before the
first completes) raises the already-moving error with the state
unchanged. -/
theorem moveToAzimuth_already_moving_w :
    (moveToAzimuth 1 270 ((moveToAzimuth 0 90 domeInit).2)).1 = some DomeErr.alreadyMoving
    ∧ (moveToAzimuth 1 270 ((moveToAzimuth 0 90 domeInit).2)).2 = (moveToAzimuth 0 90 domeInit).2 :=
  (moveToAzimuth_already_moving 0 90 domeInit rfl).2.2 rfl 1 270

/-- C4 counterexample: after a completed move to azimuth 350, a move to
azimuth 10 is accepted and records a duration of 68 seconds
(= `abs(10 - 350) / 5`), whereas the shortest angular delta (20 degrees)
at 5 degrees per second would give 4 seconds. -/
theorem moveDuration_shortest_cex :
    (domeRun domeInit [DomeOp.move 0 350, DomeOp.status 40]).az = 350
    ∧ (domeRun domeInit [DomeOp.move 0 350, DomeOp.status 40]).moving = false
    ∧ (moveToAzimuth 41 10 (domeRun domeInit [DomeOp.move 0 350, DomeOp.status 40])).1 = none
    ∧ (moveToAzimuth 41 10 (domeRun domeInit [DomeOp.move 0 350, DomeOp.status 40])).2.duration = 68
    ∧ |wrapDelta (10 - 350)| / 5 = 4
    ∧ (68 : ℚ) ≠ 4 := by
  norm_num [domeRun, domeStep, getStatus, moveToAzimuth, updatePosition, domeInit, wrapDelta, pymod]

/-- C4 amended: whenever `move_to_azimuth(target)` is accepted (dome
connected and not moving), the recorded duration is the plain absolute
difference `abs(target - azimuth)` divided by the fixed slew rate of 5
degrees per second — the difference is not reduced to the shortest
angular delta. -/
theorem moveToAzimuth_duration (now tgt : ℚ) (s : DomeState)
    (hc : s.connected = true) (hm : s.moving = false) :
    (moveToAzimuth now tgt s).1 = none
    ∧ (moveToAzimuth now tgt s).2.duration = |tgt - s.az| / 5 := by
  simp [moveToAzimuth, hc, hm, updatePosition_of_not_moving hm]

/-- Witness for C4 amended at a concrete input: from the initial state
(azimuth 180), a move to 350 is accepted with duration `170 / 5 = 34`. -/
theorem moveToAzimuth_duration_w :
    (moveToAzimuth 0 350 domeInit).1 = none
    ∧ (moveToAzimuth 0 350 domeInit).2.duration = 34 := by
  have h := moveToAzimuth_duration 0 350 domeInit rfl rfl
  refine ⟨h.1, ?_⟩
  rw [h.2]
  norm_num [domeInit]

/-- C5 counterexample: `move_to_azimuth` accepts the out-of-range target
400 (any float is accepted); once the move completes (duration 44 s), the
azimuth reported by `get_status` is exactly 400, outside `[0, 360)`. -/
theorem statusAzimuth_range_cex :
    getStatus 50 (domeRun domeInit [DomeOp.move 0 400]) =
      Except.ok ((400, false),
        { connected := true, az := 400, moving := false, target := 400, startAz := 180, moveStart := 0, duration := 44 })
    ∧ ¬((400 : ℚ) < 360) := by
  norm_num [domeRun, domeStep, getStatus, moveToAzimuth, updatePosition, domeInit, wrapDelta, pymod]

/-- C5 amended: for every sequence of dome operations with nondecreasing
timestamps in which every commanded azimuth (explicit move targets and
sync-cycle computed azimuths) lies in `[0, 360)`, and every observation
time `t` not before the last operation: the azimuth reported by
`get_status` lies in `[0, 360)`; during a move (elapsed < duration) the
report interpolates from the start azimuth along a delta `δ` congruent to
`target - start` modulo 360 with `|δ| ≤ 180` (the shortest arc, never the
long way around), wrapped into `[0, 360)`; and once elapsed ≥ duration
the report is exactly the commanded target with `moving` cleared.
(The unrestricted "any float target" of the original claim fails:
see the counterexample with target 400.) -/
theorem statusAzimuth_range (ops : List DomeOp) (t : ℚ)
    (hops : OpsOk 0 ops) (ht : opsEnd 0 ops ≤ t) :
    (∀ az mv rest, getStatus t (domeRun domeInit ops) = .ok ((az, mv), rest) →
      0 ≤ az ∧ az < 360)
    ∧ ((domeRun domeInit ops).moving = true →
        t - (domeRun domeInit ops).moveStart ≥ (domeRun domeInit ops).duration →
        getStatus t (domeRun domeInit ops) =
          .ok (((domeRun domeInit ops).target, false),
            { domeRun domeInit ops with az := (domeRun domeInit ops).target, moving := false }))
    ∧ ((domeRun domeInit ops).moving = true →
        t - (domeRun domeInit ops).moveStart < (domeRun domeInit ops).duration →
        ∃ δ : ℚ, |δ| ≤ 180
          ∧ (∃ k : ℤ, (domeRun domeInit ops).target - (domeRun domeInit ops).startAz = δ + 360 * k)
          ∧ getStatus t (domeRun domeInit ops) =
              .ok ((pymod ((domeRun domeInit ops).startAz
                      + δ * ((t - (domeRun domeInit ops).moveStart) / (domeRun domeInit ops).duration)) 360, true),
                { domeRun domeInit ops with
                    az := pymod ((domeRun domeInit ops).startAz
                      + δ * ((t - (domeRun domeInit ops).moveStart) / (domeRun domeInit ops).duration)) 360 })) := by
  have hinv : DomeInv (opsEnd 0 ops) (domeRun domeInit ops) := domeRun_inv domeInit_inv hops
  have hinvt : DomeInv t (domeRun domeInit ops) := hinv.mono ht
  have hupd := updatePosition_inv hinvt t
  refine ⟨?_, ?_, ?_⟩
  · intro az mv rest heq
    rw [getStatus] at heq
    rw [hinvt.connected] at heq
    simp only [Bool.true_eq_false, if_false, Except.ok.injEq, Prod.mk.injEq] at heq
    obtain ⟨⟨haz, _⟩, _⟩ := heq
    rw [← haz]
    exact ⟨hupd.az0, hupd.az1⟩
  · intro hm hel
    rw [getStatus, hinvt.connected]
    simp only [Bool.true_eq_false, if_false]
    rw [updatePosition, hm]
    simp only [Bool.true_eq_false, if_false, ge_iff_le, hel, if_pos]
  · intro hm hel
    refine ⟨wrapDelta ((domeRun domeInit ops).target - (domeRun domeInit ops).startAz), ?_, ?_, ?_⟩
    · exact wrapDelta_abs_le (by linarith [hinvt.tg0, hinvt.st1]) (by linarith [hinvt.tg1, hinvt.st0])
    · obtain ⟨k, hk⟩ := wrapDelta_congruent ((domeRun domeInit ops).target - (domeRun domeInit ops).startAz)
      exact ⟨k, hk⟩
    · rw [getStatus, hinvt.connected]
      simp only [Bool.true_eq_false, if_false]
      rw [updatePosition, hm]
      have hel' : ¬(t - (domeRun domeInit ops).moveStart ≥ (domeRun domeInit ops).duration) :=
        not_le.mpr hel
      simp only [Bool.true_eq_false, if_false, ge_iff_le, hel', if_false]

/-- Witness for C5 amended at concrete inputs: after moving 180→350,
resolving the completed move through `get_status`, and starting a move
350→10, an observation at t = 58 (elapsed 17 of 68) reports an
interpolated azimuth obtained from a shortest-arc delta. -/
theorem statusAzimuth_range_w :
    ∃ δ : ℚ, |δ| ≤ 180
      ∧ (∃ k : ℤ, (domeRun domeInit [DomeOp.move 0 350, DomeOp.status 40, DomeOp.move 41 10]).target
            - (domeRun domeInit [DomeOp.move 0 350, DomeOp.status 40, DomeOp.move 41 10]).startAz = δ + 360 * k)
      ∧ getStatus 58 (domeRun domeInit [DomeOp.move 0 350, DomeOp.status 40, DomeOp.move 41 10]) =
          .ok ((pymod ((domeRun domeInit [DomeOp.move 0 350, DomeOp.status 40, DomeOp.move 41 10]).startAz
                  + δ * ((58 - (domeRun domeInit [DomeOp.move 0 350, DomeOp.status 40, DomeOp.move 41 10]).moveStart)
                      / (domeRun domeInit [DomeOp.move 0 350, DomeOp.status 40, DomeOp.move 41 10]).duration)) 360, true),
            { domeRun domeInit [DomeOp.move 0 350, DomeOp.status 40, DomeOp.move 41 10] with
                az := pymod ((domeRun domeInit [DomeOp.move 0 350, DomeOp.status 40, DomeOp.move 41 10]).startAz
                  + δ * ((58 - (domeRun domeInit [DomeOp.move 0 350, DomeOp.status 40, DomeOp.move 41 10]).moveStart)
                      / (domeRun domeInit [DomeOp.move 0 350, DomeOp.status 40, DomeOp.move 41 10]).duration)) 360 }) := by
  have h := statusAzimuth_range [DomeOp.move 0 350, DomeOp.status 40, DomeOp.move 41 10] 58
    (by norm_num [OpsOk, opOk, DomeOp.time])
    (by norm_num [opsEnd, DomeOp.time])
  refine h.2.2 ?_ ?_
  · norm_num [domeRun, domeStep, getStatus, moveToAzimuth, updatePosition, domeInit, wrapDelta, pymod]
  · norm_num [domeRun, domeStep, getStatus, moveToAzimuth, updatePosition, domeInit, wrapDelta, pymod]

/-! ## The sync loop under the actual wiring (`app/api/dome.py` line 14)

`dome = DomeFake(mount=telescope_mount)` constructs the dome with the
synchronous `TenMicronMount` instance of `app/api/telescope.py` line 22
(not the `TenMicronMountFake` named in the type hint).  Its
`get_mount_ra_dec`, `get_sidereal_time` and `pier_side` are plain `def`s
returning tuples/strings, so `await`ing them in `_sync_loop` raises
`TypeError`. -/

/-- Python exceptions relevant to the sync loop under the real wiring. -/
inductive PyExn
  | typeError (msg : String)
  | mountError (msg : String)
deriving DecidableEq, Repr

/-- Result of calling a Python callable: a returned value or a raised
exception. -/
inductive PyResult (α : Type)
  | val (a : α)
  | exn (e : PyExn)
deriving DecidableEq, Repr

/-- Message of the `TypeError` raised when awaiting a non-awaitable. -/
def awaitTypeErrorMsg : String :=
  "object can not be used in await expression"

/-- Models Python `await` applied to the result of calling a synchronous
(non-coroutine) method: if the call itself raised, that exception
propagates; if it returned a plain value (tuple, str, ...), the value is
not awaitable and `await` raises `TypeError`. -/
def awaitSyncCall {α : Type} (r : PyResult α) : PyResult α :=
  match r with
  | .exn e => .exn e
  | .val _ => .exn (.typeError awaitTypeErrorMsg)

/-- One `_sync_loop` cycle under the actual wiring: the three mount reads
are synchronous calls whose results are awaited.  The
`except Exception` handler of the cycle is modelled by returning the caught exception
in the third component (the source logs it and continues to the next
cycle).  `computeAz` abstracts `_hms_to_hours` and
`geometry.calculate_dome_azimuth`, which this wiring never reaches.
Returns (state after the cycle, number of `move_to_azimuth` calls, caught
exception if any). -/
def realWiringCycle (now : ℚ) (s : DomeState)
    (raDecCall : PyResult (ℚ × ℚ)) (sidCall : PyResult String) (pierCall : PyResult String)
    (computeAz : ℚ × ℚ → String → String → ℚ) : DomeState × ℕ × Option PyExn :=
  match awaitSyncCall raDecCall with
  | .exn e => (s, 0, some e)
  | .val rd =>
    match awaitSyncCall sidCall with
    | .exn e => (s, 0, some e)
    | .val sid =>
      match awaitSyncCall pierCall with
      | .exn e => (s, 0, some e)
      | .val pier =>
        if s.moving = false ∧ |computeAz rd sid pier - s.target| > 1 then
          ((moveToAzimuth now (computeAz rd sid pier) s).2, 1, none)
        else (s, 0, none)

/-- Iterated sync-loop cycles under the actual wiring, each with its own
timestamp and mount-call results; returns the final dome state and the
total number of `move_to_azimuth` calls. -/
def runRealCycles (s : DomeState)
    (cycles : List (ℚ × PyResult (ℚ × ℚ) × PyResult String × PyResult String))
    (computeAz : ℚ × ℚ → String → String → ℚ) : DomeState × ℕ :=
  match cycles with
  | [] => (s, 0)
  | (now, r1, r2, r3) :: rest =>
    ((runRealCycles (realWiringCycle now s r1 r2 r3 computeAz).1 rest computeAz).1,
      (realWiringCycle now s r1 r2 r3 computeAz).2.1
        + (runRealCycles (realWiringCycle now s r1 r2 r3 computeAz).1 rest computeAz).2)

theorem realWiringCycle_inert (now : ℚ) (s : DomeState)
    (r1 : PyResult (ℚ × ℚ)) (r2 r3 : PyResult String)
    (computeAz : ℚ × ℚ → String → String → ℚ) :
    (realWiringCycle now s r1 r2 r3 computeAz).1 = s
    ∧ (realWiringCycle now s r1 r2 r3 computeAz).2.1 = 0
    ∧ (∃ e, (realWiringCycle now s r1 r2 r3 computeAz).2.2 = some e) := by
  cases r1 <;> simp [realWiringCycle, awaitSyncCall]

/-- C2: under the actual wiring every sync-loop cycle catches an
exception — a `TypeError` from awaiting the synchronous
`get_mount_ra_dec` whenever that call returns — the state is unchanged
and no `move_to_azimuth` call is made; consequently any number of cycles
leaves the dome state unchanged with zero moves: the sync loop never
moves the dome. -/
theorem syncLoop_never_moves (now : ℚ) (s : DomeState)
    (r1 : PyResult (ℚ × ℚ)) (r2 r3 : PyResult String)
    (computeAz : ℚ × ℚ → String → String → ℚ) :
    (realWiringCycle now s r1 r2 r3 computeAz).1 = s
    ∧ (realWiringCycle now s r1 r2 r3 computeAz).2.1 = 0
    ∧ (∃ e, (realWiringCycle now s r1 r2 r3 computeAz).2.2 = some e)
    ∧ (∀ v, r1 = PyResult.val v →
        (realWiringCycle now s r1 r2 r3 computeAz).2.2 = some (PyExn.typeError awaitTypeErrorMsg))
    ∧ (∀ cycles, (runRealCycles s cycles computeAz).1 = s
        ∧ (runRealCycles s cycles computeAz).2 = 0) := by
  obtain ⟨h1, h2, h3⟩ := realWiringCycle_inert now s r1 r2 r3 computeAz
  refine ⟨h1, h2, h3, ?_, ?_⟩
  · intro v hv
    subst hv
    simp [realWiringCycle, awaitSyncCall]
  · intro cycles
    suffices hgen : ∀ (cs : List (ℚ × PyResult (ℚ × ℚ) × PyResult String × PyResult String))
        (s₀ : DomeState), (runRealCycles s₀ cs computeAz).1 = s₀
          ∧ (runRealCycles s₀ cs computeAz).2 = 0 from hgen cycles s
    intro cs
    induction cs with
    | nil => exact fun s₀ => ⟨rfl, rfl⟩
    | cons c rest ih =>
      intro s₀
      obtain ⟨c1, c2, c3, c4⟩ := c
      obtain ⟨g1, g2, _⟩ := realWiringCycle_inert c1 s₀ c2 c3 c4 computeAz
      obtain ⟨ih1, ih2⟩ := ih (realWiringCycle c1 s₀ c2 c3 c4 computeAz).1
      constructor
      · rw [runRealCycles, ih1, g1]
      · rw [runRealCycles, g2, ih2]

/-- Witness for C2 at concrete inputs: one cycle at the initial state in
which all three mount reads return values ends with the await
`TypeError` caught, no move issued, state unchanged. -/
theorem syncLoop_never_moves_w :
    (realWiringCycle 0 domeInit (PyResult.val (0, 0)) (PyResult.val "00:00:00.00")
        (PyResult.val "West") (fun _ _ _ => 0)).2.2
      = some (PyExn.typeError awaitTypeErrorMsg)
    ∧ (realWiringCycle 0 domeInit (PyResult.val (0, 0)) (PyResult.val "00:00:00.00")
        (PyResult.val "West") (fun _ _ _ => 0)).1 = domeInit
    ∧ (realWiringCycle 0 domeInit (PyResult.val (0, 0)) (PyResult.val "00:00:00.00")
        (PyResult.val "West") (fun _ _ _ => 0)).2.1 = 0 := by
  have h := syncLoop_never_moves 0 domeInit (PyResult.val (0, 0)) (PyResult.val "00:00:00.00")
    (PyResult.val "West") (fun _ _ _ => 0)
  exact ⟨h.2.2.2.1 (0, 0) rfl, h.1, h.2.1⟩

/-! ## Command channel: `TenMicronMount.send_command` terminated framing
(`app/api/tenmicron/tenmicron.py` lines 207-271)

Bytes are modelled as characters (the protocol payloads in question are
ASCII; the 0xDF→degree-sign decode step is the identity on them).  The
socket is modelled by a script of read events consumed by the
`while not data.endswith(b"#")` loop. -/

/-- One result of `self.sock.recv(...)`: a chunk of bytes (empty = peer
closed the connection) or a `socket.timeout`. -/
inductive RecvEvent
  | chunk (data : List Char)
  | timedOut
deriving DecidableEq, Repr

/-- The two `MountError`s raised on `socket.timeout` for a terminated
command: `timeoutNoResponse` is `MountError("Timeout waiting for
response to cmd")` (zero bytes read), `timeoutMissingTerminator` is
`MountError("Timeout waiting for terminator in response to cmd")`
(partial bytes read). -/
inductive MountErr
  | timeoutNoResponse
  | timeoutMissingTerminator
deriving DecidableEq, Repr

/-- Python `data.endswith(b"#")`. -/
def endsWithHash (data : List Char) : Bool :=
  match data.getLast? with
  | some c => c == '#'
  | none => false

/-- The terminated-framing read loop: accumulate chunks until the data
ends with the terminator; an empty chunk (closed connection) breaks out
with the partial data; a `socket.timeout` raises `timeoutNoResponse` if
no bytes were accumulated and `timeoutMissingTerminator` otherwise.
`none` models a script that leaves the loop still blocked in `recv`. -/
def readTerminated : List RecvEvent → List Char → Option (Except MountErr (List Char))
  | [], data => if endsWithHash data then some (.ok data) else none
  | ev :: rest, data =>
    if endsWithHash data then some (.ok data)
    else
      match ev with
      | .timedOut =>
        if data = [] then some (.error .timeoutNoResponse)
        else some (.error .timeoutMissingTerminator)
      | .chunk c =>
        if c = [] then some (.ok data) else readTerminated rest (data ++ c)

/-- Python `str.strip()`: drop whitespace from both ends. -/
def pyStrip (l : List Char) : List Char :=
  ((l.dropWhile Char.isWhitespace).reverse.dropWhile Char.isWhitespace).reverse

/-- Python `str.rstrip("#")`: drop all trailing terminator characters. -/
def rstripHash (l : List Char) : List Char :=
  (l.reverse.dropWhile (fun c => c == '#')).reverse

/-- Python `text.split("#")[0]`. -/
def firstSegment (l : List Char) : List Char :=
  l.takeWhile (fun c => c != '#')

/-- The reply cleaning of `send_command` (lines 261-267): when the
accumulated text holds at least one terminator, keep only the first
reply (`text.split("#")[0] + "#"`); then strip the trailing terminator
and surrounding whitespace. -/
def cleanReply (text : List Char) : List Char :=
  pyStrip (rstripHash (if text.contains '#' then firstSegment text ++ ['#'] else text))

/-- `send_command` with `terminated=True` given the socket script:
read loop then reply cleaning. -/
def sendCommandTerminated (events : List RecvEvent) : Option (Except MountErr (List Char)) :=
  match readTerminated events [] with
  | none => none
  | some (.error e) => some (.error e)
  | some (.ok data) => some (.ok (cleanReply data))

theorem takeWhile_append_sentinel (p : Char → Bool) (r₁ : List Char) (x : Char)
    (r₂ : List Char) (h : ∀ a ∈ r₁, p a = true) (hx : p x = false) :
    (r₁ ++ x :: r₂).takeWhile p = r₁ := by
  induction r₁ with
  | nil => simp [List.takeWhile, hx]
  | cons a as ih =>
    have ha : p a = true := h a (List.mem_cons_self a as)
    have has : ∀ b ∈ as, p b = true := fun b hb => h b (List.mem_cons_of_mem a hb)
    simp [List.takeWhile, ha, ih has]

theorem dropWhile_eq_self_of_forall (p : Char → Bool) (l : List Char)
    (h : ∀ a ∈ l, p a = false) : l.dropWhile p = l := by
  cases l with
  | nil => rfl
  | cons a as => simp [List.dropWhile, h a (List.mem_cons_self a as)]

theorem rstripHash_append_hash (r₁ : List Char) (h : '#' ∉ r₁) :
    rstripHash (r₁ ++ ['#']) = r₁ := by
  have hd : ∀ a ∈ r₁.reverse, (a == '#') = false := by
    intro a ha
    have ham : a ∈ r₁ := List.mem_reverse.mp ha
    have : a ≠ '#' := fun he => h (he ▸ ham)
    simpa using this
  unfold rstripHash
  rw [List.reverse_append]
  simp only [List.reverse_cons, List.reverse_nil, List.nil_append, List.singleton_append]
  rw [List.dropWhile_cons_of_pos (by simp)]
  rw [dropWhile_eq_self_of_forall _ _ hd, List.reverse_reverse]

/-- C7: for a terminated-framing command whose accumulated received
bytes decompose as a first reply `r₁` (terminator-free), its terminator,
and a remainder containing at least one further terminator (two replies
coalesced), `send_command` returns exactly the first reply with its
terminator stripped and surrounding whitespace trimmed; the remainder is
discarded. -/
theorem sendCommand_coalesced_first_reply (events : List RecvEvent)
    (data r₁ r₂ : List Char)
    (hread : readTerminated events [] = some (.ok data))
    (hsplit : data = r₁ ++ '#' :: r₂)
    (hr₁ : '#' ∉ r₁) (_hr₂ : '#' ∈ r₂) :
    sendCommandTerminated events = some (.ok (pyStrip r₁)) := by
  have hcontains : data.contains '#' = true := by
    subst hsplit
    exact List.elem_eq_true_of_mem (by simp)
  have hfirst : firstSegment data = r₁ := by
    subst hsplit
    apply takeWhile_append_sentinel
    · intro a ha
      have : a ≠ '#' := fun he => hr₁ (he ▸ ha)
      simpa using this
    · simp
  have hclean : cleanReply data = pyStrip r₁ := by
    unfold cleanReply
    rw [if_pos hcontains, hfirst, rstripHash_append_hash r₁ hr₁]
  unfold sendCommandTerminated
  rw [hread]
  dsimp only
  rw [hclean]

/-- Witness for C7 at the concrete input from the spec: received bytes
`"12:34:56#22:33:44#"` in one chunk yield exactly `"12:34:56"`. -/
theorem sendCommand_coalesced_first_reply_w :
    sendCommandTerminated [RecvEvent.chunk ("12:34:56#22:33:44#".toList)] =
      some (.ok ("12:34:56".toList)) := by
  have h := sendCommand_coalesced_first_reply [RecvEvent.chunk ("12:34:56#22:33:44#".toList)]
    ("12:34:56#22:33:44#".toList) ("12:34:56".toList) ("22:33:44#".toList)
    rfl (by decide) (by decide) (by decide)
  rw [h]
  have hps : pyStrip ("12:34:56".toList) = "12:34:56".toList := by decide
  rw [hps]

/-- C8: for a terminated-framing command, a socket timeout with zero
bytes accumulated raises the plain timeout error, while a timeout after
a nonempty terminator-free partial reply raises the distinct error
naming the missing terminator. -/
theorem sendCommand_timeout_cases :
    (∀ rest, sendCommandTerminated (RecvEvent.timedOut :: rest) =
      some (.error MountErr.timeoutNoResponse))
    ∧ (∀ c rest, c ≠ [] → '#' ∉ c →
        sendCommandTerminated (RecvEvent.chunk c :: RecvEvent.timedOut :: rest) =
          some (.error MountErr.timeoutMissingTerminator)) := by
  constructor
  · intro rest
    simp [sendCommandTerminated, readTerminated, endsWithHash]
  · intro c rest hc hnh
    have hend : endsWithHash c = false := by
      rw [endsWithHash]
      match hlast : c.getLast? with
      | none => rfl
      | some a =>
        have ha : a ∈ c := List.mem_of_mem_getLast? hlast
        have hne : a ≠ '#' := fun he => hnh (he ▸ ha)
        simpa using hne
    have hnil : endsWithHash ([] : List Char) = false := rfl
    simp [sendCommandTerminated, readTerminated, hnil, hc, hend]

/-- Witness for C8 at concrete inputs: a timeout with zero bytes, and a
timeout after the partial reply `"12:34"`. -/
theorem sendCommand_timeout_cases_w :
    sendCommandTerminated [RecvEvent.timedOut] = some (.error MountErr.timeoutNoResponse)
    ∧ sendCommandTerminated [RecvEvent.chunk ("12:34".toList), RecvEvent.timedOut] =
        some (.error MountErr.timeoutMissingTerminator) :=
  ⟨sendCommand_timeout_cases.1 [],
    sendCommand_timeout_cases.2 ("12:34".toList) [] (by decide) (by decide)⟩

/-! ## `TenMicronMount.halt_movement` (lines 774-792) -/

/-- The `ValueError("Direction must be one of N, S, E, W")` of
`halt_movement`. -/
inductive ValErr
  | invalidDirection
deriving DecidableEq, Repr

/-- Python `str.lower()` on ASCII strings. -/
def strLower (s : String) : String := String.mk (s.data.map Char.toLower)

/-- Directions accepted by the membership check of `halt_movement`. -/
def haltDirections : List String := ["N", "S", "E", "W", "n", "s", "e", "w"]

/-- `halt_movement(direction)`: validates the direction, then sends
`:Q<direction.lower()>` only when a direction was given; with
`direction=None` the body falls through without sending any command.
Returns the validation error or the list of command strings passed to
`send_command` (the wire adds the trailing terminator). -/
def haltMovement (direction : Option String) : Except ValErr (List String) :=
  match direction with
  | some d =>
    if d ∈ haltDirections then .ok [":Q" ++ strLower d]
    else .error .invalidDirection
  | none => .ok []

/-- C9: evaluating `halt_movement` at the failing input `direction=None`
sends no command at all — although its docstring says it halts all
current slewing via `:Q` in that case — while a valid direction sends
exactly the direction-qualified halt and an invalid one raises the
validation error before any wire traffic. -/
theorem haltMovement_none_sends_nothing :
    haltMovement none = .ok []
    ∧ haltMovement (some "W") = .ok [":Qw"]
    ∧ haltMovement (some "X") = .error ValErr.invalidDirection :=
  ⟨rfl, rfl, rfl⟩

/-! ## Angle codec (`tenmicron.py` lines 277-317)

Python floats become exact rationals; every arithmetic step of the
codec on the inputs below is exact in float64 where it matters, and the
formatted string `"HH:MM:SS.ss"` is represented by its numeric fields
(whole hours/degrees, whole minutes, seconds in hundredths): rendering
integers to decimal digits and parsing them back with `float(...)` is
exact, so the string layer adds nothing. -/

/-- Python `int(q)`: truncation toward zero. -/
def pytrunc (q : ℚ) : ℤ := if 0 ≤ q then ⌊q⌋ else -⌊-q⌋

/-- Rounding to the nearest integer with ties to even, as Python float
formatting `f"{s:05.2f}"` does at the hundredths scale. -/
def rhe (q : ℚ) : ℤ :=
  if q - ⌊q⌋ < 1/2 then ⌊q⌋
  else if 1/2 < q - ⌊q⌋ then ⌊q⌋ + 1
  else if Even ⌊q⌋ then ⌊q⌋ else ⌊q⌋ + 1

/-- `h = int(hours)` of `_hours_to_hms`. -/
def hmsH (hours : ℚ) : ℤ := pytrunc hours

/-- `m = int((hours - h) * 60)` of `_hours_to_hms`. -/
def hmsM (hours : ℚ) : ℤ := pytrunc ((hours - (hmsH hours : ℚ)) * 60)

/-- `s = (hours - h - m/60) * 3600` of `_hours_to_hms`. -/
def hmsS (hours : ℚ) : ℚ := (hours - (hmsH hours : ℚ) - (hmsM hours : ℚ) / 60) * 3600

/-- `TenMicronMount._hours_to_hms`: the rendered `"HH:MM:SS.ss"` as
(whole hours, whole minutes, seconds in hundredths rounded by the
2-decimal float format). -/
def hoursToHMS (hours : ℚ) : ℤ × ℤ × ℤ :=
  (hmsH hours, hmsM hours, rhe (100 * hmsS hours))

/-- `TenMicronMount._hms_to_hours` on the rendered fields:
`h + m/60 + s/3600`. -/
def hmsToHours (t : ℤ × ℤ × ℤ) : ℚ :=
  (t.1 : ℚ) + (t.2.1 : ℚ) / 60 + ((t.2.2 : ℚ) / 100) / 3600

/-- `d = abs(int(deg))` of `_degrees_to_dms`. -/
def dmsD (deg : ℚ) : ℤ := |pytrunc deg|

/-- `m = int((abs(deg) - d) * 60)` of `_degrees_to_dms`. -/
def dmsM (deg : ℚ) : ℤ := pytrunc ((|deg| - (dmsD deg : ℚ)) * 60)

/-- `s = (abs(deg) - d - m/60) * 3600` of `_degrees_to_dms`. -/
def dmsS (deg : ℚ) : ℚ := (|deg| - (dmsD deg : ℚ) - (dmsM deg : ℚ) / 60) * 3600

/-- `TenMicronMount._degrees_to_dms` with `signed=True`: the rendered
`"±DD:MM:SS.ss"` as (sign is minus, whole degrees, whole minutes,
seconds in hundredths). -/
def degreesToDMS (deg : ℚ) : Bool × ℤ × ℤ × ℤ :=
  (decide (deg < 0), dmsD deg, dmsM deg, rhe (100 * dmsS deg))

/-- `TenMicronMount._dms_to_degrees` on the rendered fields:
`sign * (abs(d) + m/60 + s/3600)`. -/
def dmsToDegrees (x : Bool × ℤ × ℤ × ℤ) : ℚ :=
  (if x.1 then (-1 : ℚ) else 1)
    * (|(x.2.1 : ℚ)| + (x.2.2.1 : ℚ) / 60 + ((x.2.2.2 : ℚ) / 100) / 3600)

theorem rhe_abs_le (q : ℚ) : |(rhe q : ℚ) - q| ≤ 1/2 := by
  have h1 : (⌊q⌋ : ℚ) ≤ q := Int.floor_le q
  have h2 : q < ⌊q⌋ + 1 := Int.lt_floor_add_one q
  unfold rhe
  split_ifs with a b c
  · push_cast
    rw [abs_le]
    constructor <;> linarith
  · push_cast
    rw [abs_le]
    constructor <;> linarith
  · push_cast
    rw [abs_le]
    constructor <;> linarith
  · push_cast
    rw [abs_le]
    constructor <;> linarith

theorem hms_roundtrip_eq (h : ℚ) :
    hmsToHours (hoursToHMS h) - h = ((rhe (100 * hmsS h) : ℚ) - 100 * hmsS h) / 360000 := by
  unfold hmsToHours hoursToHMS
  rw [hmsS]
  push_cast
  ring

theorem dms_roundtrip_eq (d : ℚ) :
    dmsToDegrees (degreesToDMS d) - d =
      (if d < 0 then (-1 : ℚ) else 1) * (((rhe (100 * dmsS d) : ℚ) - 100 * dmsS d) / 360000) := by
  have habsD : |((dmsD d : ℤ) : ℚ)| = ((dmsD d : ℤ) : ℚ) := by
    apply abs_of_nonneg
    exact_mod_cast abs_nonneg (pytrunc d)
  unfold dmsToDegrees degreesToDMS
  by_cases hd : d < 0
  · simp only [hd, decide_True, if_true, habsD]
    rw [dmsS, abs_of_neg hd]
    push_cast
    ring
  · simp only [hd, decide_False, Bool.false_eq_true, if_false, habsD]
    rw [dmsS, abs_of_nonneg (not_lt.mp hd)]
    push_cast
    ring

theorem abs_rhe_quotient_le (x : ℚ) : |((rhe x : ℚ) - x) / 360000| ≤ 1/720000 := by
  rw [abs_div]
  have habs : |(360000 : ℚ)| = 360000 := by norm_num
  rw [habs, div_le_iff₀ (by norm_num : (0:ℚ) < 360000)]
  calc |(rhe x : ℚ) - x| ≤ 1/2 := rhe_abs_le x
    _ = 1 / 720000 * 360000 := by norm_num

/-- C6 counterexample: the claimed 1e-6 round-trip tolerance fails at the
float64-representable input `h = 1/128` (= 0.0078125 hours = 28.125
seconds): the 2-decimal seconds format rounds 28.125 to 28.12 (ties to
even), so parsing returns `2812/360000` and the error is exactly
`0.005 s / 3600 = 1/720000 ≈ 1.39e-6 > 1e-6`. -/
theorem angle_roundtrip_1e6_cex :
    ¬(|hmsToHours (hoursToHMS (1/128)) - 1/128| ≤ 1/1000000) := by
  have he : hoursToHMS (1/128) = (0, 0, 2812) := by
    norm_num [hoursToHMS, hmsH, hmsM, hmsS, pytrunc, rhe, Int.even_iff]
  rw [he]
  norm_num [hmsToHours]
  rw [abs_of_pos (by norm_num : (0:ℚ) < 1/720000)]
  norm_num

/-- C6 amended: for all h in [0,24) and d in [-90,180], the
formatter/parser composition recovers the input within `1/720000`
(≈ 1.389e-6, half of the 0.01-second rendering granularity expressed in
hours/degrees) — not within the claimed 1e-6, which the counterexample
at h = 1/128 exceeds. -/
theorem angle_roundtrip_720000 (h d : ℚ) (hh0 : 0 ≤ h) (hh1 : h < 24)
    (hd0 : -90 ≤ d) (hd1 : d ≤ 180) :
    |hmsToHours (hoursToHMS h) - h| ≤ 1/720000
    ∧ |dmsToDegrees (degreesToDMS d) - d| ≤ 1/720000 := by
  constructor
  · rw [hms_roundtrip_eq]
    exact abs_rhe_quotient_le _
  · rw [dms_roundtrip_eq, abs_mul]
    have hsign : |(if d < 0 then (-1 : ℚ) else 1)| = 1 := by
      split_ifs <;> norm_num
    rw [hsign, one_mul]
    exact abs_rhe_quotient_le _

/-- Witness for C6 amended at the concrete inputs h = d = 1/128. -/
theorem angle_roundtrip_720000_w :
    |hmsToHours (hoursToHMS (1/128)) - 1/128| ≤ 1/720000
    ∧ |dmsToDegrees (degreesToDMS (1/128)) - 1/128| ≤ 1/720000 :=
  angle_roundtrip_720000 (1/128) (1/128) (by norm_num) (by norm_num)
    (by norm_num) (by norm_num)

/-! ## Dome geometry model (`app/api/dome_geometry.py`, class `DomeGeometry`)

Modelled over the real numbers.  Matrices are applied as explicit dot
products matching the numpy arrays of `calculate_dome_azimuth` row by
row. -/

/-- The configuration stored by `DomeGeometry.__init__`: the geometry
constants plus the precomputed `latitude_rad = deg2rad(latitude)` (the
astropy `EarthLocation` is only stored, never used by
`calculate_dome_azimuth`). -/
structure DomeGeometry where
  dome_radius : ℝ
  mount_offset_ns : ℝ
  mount_offset_ew : ℝ
  mount_pier_height : ℝ
  polar_axis_to_dec_axis : ℝ
  dec_axis_to_telescope : ℝ
  latitude_rad : ℝ

/-- `np.deg2rad`. -/
noncomputable def deg2rad (d : ℝ) : ℝ := d * Real.pi / 180

/-- `np.rad2deg`. -/
noncomputable def rad2deg (r : ℝ) : ℝ := r * 180 / Real.pi

/-- The latitude-tilt rotation matrix `lat_rot` (lines 81-85) applied to
a vector: rows `[1,0,0; 0,cos(-lat),-sin(-lat); 0,sin(-lat),cos(-lat)]`. -/
noncomputable def latRot (lat : ℝ) (v : ℝ × ℝ × ℝ) : ℝ × ℝ × ℝ :=
  (1 * v.1 + 0 * v.2.1 + 0 * v.2.2,
   0 * v.1 + Real.cos (-lat) * v.2.1 + -Real.sin (-lat) * v.2.2,
   0 * v.1 + Real.sin (-lat) * v.2.1 + Real.cos (-lat) * v.2.2)

/-- The hour-angle rotation matrix `ha_rot` (lines 92-96) applied to a
vector: rows `[cos ha,0,sin ha; 0,1,0; -sin ha,0,cos ha]`. -/
noncomputable def haRot (ha : ℝ) (v : ℝ × ℝ × ℝ) : ℝ × ℝ × ℝ :=
  (Real.cos ha * v.1 + 0 * v.2.1 + Real.sin ha * v.2.2,
   0 * v.1 + 1 * v.2.1 + 0 * v.2.2,
   -Real.sin ha * v.1 + 0 * v.2.1 + Real.cos ha * v.2.2)

/-- Componentwise vector addition. -/
def add3 (a b : ℝ × ℝ × ℝ) : ℝ × ℝ × ℝ := (a.1 + b.1, a.2.1 + b.2.1, a.2.2 + b.2.2)

/-- Mathematical two-argument arctangent for nonzero x, matching IEEE
atan2 away from the signed-zero cases. -/
noncomputable def realArctan2 (y x : ℝ) : ℝ :=
  if x > 0 then Real.arctan (y / x)
  else if x < 0 then
    (if y ≥ 0 then Real.arctan (y / x) + Real.pi else Real.arctan (y / x) - Real.pi)
  else
    (if y > 0 then Real.pi / 2 else if y < 0 then -(Real.pi / 2) else 0)

/-- `np.arctan2(x, -z)` as called on line 113, with IEEE signed-zero
semantics made explicit: the float `z` computed there carries a positive
sign bit whenever it is zero (it is a sum whose zero summands are
positively signed), so `-z` is IEEE negative zero and
`atan2(+0, -0) = pi`; for `x ≠ 0, z = 0` IEEE gives `±pi/2` as the real
function does.  For `z ≠ 0` float negation agrees with real negation. -/
noncomputable def npArctan2NegZ (x z : ℝ) : ℝ :=
  if z = 0 then (if x > 0 then Real.pi / 2 else if x < 0 then -(Real.pi / 2) else Real.pi)
  else realArctan2 x (-z)

/-- Python float `x % m` over the reals (`% 360` on line 114). -/
noncomputable def pymodR (x m : ℝ) : ℝ := x - m * ⌊x / m⌋

/-- `DomeGeometry.calculate_dome_azimuth` (lines 39-116): hour angle from
sidereal time and RA, pier flip of 180° when the pier side lowercases to
"east", RA-pivot position from the offsets, declination pivot by
latitude-then-hour-angle rotation of the polar-axis vector, optical-tube
offset by hour-angle-then-latitude rotation of the declination-oriented
vector, then `atan2(x, -z)` of the summed position converted to degrees
and wrapped into `[0, 360)`. -/
noncomputable def calculate_dome_azimuth (g : DomeGeometry)
    (ra_hours dec_degrees sidereal_time_hours : ℝ) (pier_side : String) : ℝ :=
  let ha_rad := deg2rad ((sidereal_time_hours - ra_hours) * 15)
  let dec_rad := deg2rad dec_degrees
  let pier_flip := if strLower pier_side = "east" then Real.pi else 0
  let ra_pivot_pos : ℝ × ℝ × ℝ := (g.mount_offset_ew, g.mount_pier_height, g.mount_offset_ns)
  let dec_pivot_pos_mount_frame := haRot ha_rad (latRot g.latitude_rad (0, g.polar_axis_to_dec_axis, 0))
  let v_dec_to_ota : ℝ × ℝ × ℝ :=
    (Real.cos (dec_rad + pier_flip) * g.dec_axis_to_telescope,
     0 * g.dec_axis_to_telescope,
     Real.sin (dec_rad + pier_flip) * g.dec_axis_to_telescope)
  let ota_offset_vec := latRot g.latitude_rad (haRot ha_rad v_dec_to_ota)
  let telescope_pos := add3 ra_pivot_pos (add3 dec_pivot_pos_mount_frame ota_offset_vec)
  pymodR (rad2deg (npArctan2NegZ telescope_pos.1 telescope_pos.2.2) + 360) 360

/-- C10: with all five geometry constants zero (offsets, pier height,
both axis distances — latitude and the unused dome radius arbitrary),
hour angle zero (sidereal time equal to RA), declination zero and pier
side "West", `calculate_dome_azimuth` returns exactly 180 degrees. -/
theorem calc_dome_azimuth_meridian (g : DomeGeometry) (ra st : ℝ)
    (hg_ns : g.mount_offset_ns = 0) (hg_ew : g.mount_offset_ew = 0)
    (hg_h : g.mount_pier_height = 0) (hg_p : g.polar_axis_to_dec_axis = 0)
    (hg_d : g.dec_axis_to_telescope = 0) (hra : st = ra) :
    calculate_dome_azimuth g ra 0 st "West" = 180 := by
  subst hra
  have hpier : strLower "West" = "west" := rfl
  have hne : ¬(strLower "West" = "east") := by rw [hpier]; decide
  simp only [calculate_dome_azimuth, hg_ns, hg_ew, hg_h, hg_p, hg_d, hne, if_false,
    latRot, haRot, add3]
  norm_num [npArctan2NegZ]
  have h180 : rad2deg Real.pi = 180 := by
    unfold rad2deg
    rw [mul_comm, mul_div_assoc, div_self Real.pi_ne_zero, mul_one]
  rw [h180]
  unfold pymodR
  norm_num

/-- Witness for C10 at a concrete input: a centered configuration with
dome radius 2.5 and latitude −0.59 rad, RA = sidereal = 5 h, declination
0, pier side "West". -/
theorem calc_dome_azimuth_meridian_w :
    calculate_dome_azimuth ⟨5/2, 0, 0, 0, 0, 0, -59/100⟩ 5 0 5 "West" = 180 :=
  calc_dome_azimuth_meridian ⟨5/2, 0, 0, 0, 0, 0, -59/100⟩ 5 5 rfl rfl rfl rfl rfl rfl

end Observatory
